import Mathlib

/-!
# ElizaTown — verification of the client logic and schema policies

Shallow embedding of the ElizaTown single-page application
(`src/src/App.tsx`) and of its hosted-database schema with row-level
security policies (`src/supabase/migrations/20250121171648_bright_resonance.sql`).

Modelling conventions:
* The platform pieces (the JSON parser of the browser, the object-storage
  public-URL issuance, the hosted SQL engine) are external to the
  repository; their outcomes enter the model either as explicit data
  (a `DropFile` carries the parse result of its text) or as small
  functions transcribing their documented behaviour.
* Backend tables are lists of rows; row-level security policies are
  transcribed from the migration and applied to each write.
* Each UI handler becomes a pure function from its inputs (component
  state, session, backend responses) to an outcome record collecting
  the network calls it issued, the toast notifications it showed, and
  the resulting state.
-/

namespace ElizaTown

/-- A toast notification shown by `react-hot-toast` (`toast.success` / `toast.error`). -/
inductive Note where
  | success (msg : String)
  | error (msg : String)
deriving DecidableEq

/-- JSON values, as produced by the browser `JSON.parse`. -/
inductive Json where
  | null
  | bool (b : Bool)
  | num (n : Int)
  | str (s : String)
  | arr (elems : List Json)
  | obj (fields : List (String × Json))

/-- Last binding of `key` in an object's field list: `JSON.parse` keeps the
last occurrence of a duplicated key, and property access reads that one. -/
def jsonFieldLast (fields : List (String × Json)) (key : String) : Option Json :=
  fields.foldl (fun acc kv => if kv.1 = key then some kv.2 else acc) none

/-- JavaScript property access `json.name`: a field of an object, `undefined`
(here `none`) on any non-object value. -/
def jsonGet (j : Json) (key : String) : Option Json :=
  match j with
  | .obj fields => jsonFieldLast fields key
  | _ => none

/-- JavaScript truthiness of a JSON value. -/
def jsTruthy : Json → Bool
  | .null => false
  | .bool b => b
  | .num n => decide (n ≠ 0)
  | .str s => decide (s ≠ "")
  | .arr _ => true
  | .obj _ => true

/-- The JavaScript expression `v || dflt` on a possibly-undefined value. -/
def jsOrDefault (v : Option Json) (dflt : Json) : Json :=
  match v with
  | some x => if jsTruthy x then x else dflt
  | none => dflt

/-- The JavaScript expression `a || b` on possibly-undefined strings, as in
the username fallback chain of `fetchProfile`. -/
def jsOrStr (a : Option String) (b : String) : String :=
  match a with
  | some s => if s = "" then b else s
  | none => b

/-- OAuth user metadata (`user.user_metadata`), GitHub provider fields read
by `fetchProfile`. -/
structure UserMeta where
  preferred_username : Option String
  user_name : Option String
deriving DecidableEq

/-- The authenticated user object of a session. -/
structure AuthUser where
  id : String
  user_metadata : UserMeta
deriving DecidableEq

/-- An active auth session (`session.user`). -/
structure Session where
  user : AuthUser
deriving DecidableEq

/-- A file dropped on the character dropzone: its name together with the
outcome of the browser `JSON.parse` on its text (`none` when parsing threw). -/
structure DropFile where
  filename : String
  parsed : Option Json

/-- The `UploadModal` form state: staged character file, staged image file
(by name), and the `details` record. `details.name` is kept as a JSON value
because `setDetails({ name: json.name || .. })` stores the raw parsed value. -/
structure UploadForm where
  characterFile : Option DropFile
  imageFile : Option String
  name : Json
  description : String

/-- The initial `UploadModal` state: no files staged, empty details. -/
def initialUploadForm : UploadForm :=
  { characterFile := none, imageFile := none, name := Json.str "", description := "" }

/-- The character dropzone `onDrop` handler (App.tsx lines 52-69): takes the
accepted files, reads the first one; if its text failed to parse as JSON it
shows the toast `Invalid JSON file` and changes nothing; otherwise it sets
`details.name` to `json.name || ''` and stages the file. -/
def charOnDrop (files : List DropFile) (form : UploadForm) : UploadForm × List Note :=
  match files with
  | [] => (form, [])
  | file :: _ =>
    match file.parsed with
    | none => (form, [Note.error "Invalid JSON file"])
    | some j =>
      ({ form with
          name := jsOrDefault (jsonGet j "name") (Json.str ""),
          characterFile := some file }, [])

/-- A backend call issued by the client. -/
inductive NetCall where
  | storageUpload (bucket path : String)
  | insertCharacter (name : Json) (description fileUrl imageUrl authorId : String)
  | updateDownloadCount (id : String) (newCount : Int)
  | storageRemove (bucket path : String)

/-- Whether a call deletes an object from storage. The client never issues
such a call; it is in the vocabulary only to state that fact. -/
def NetCall.isRemove : NetCall → Bool
  | .storageRemove _ _ => true
  | _ => false

/-- `filename.split('.').pop()` — the extension part of a file name. -/
def fileExt (filename : String) : String :=
  (filename.splitOn ".").getLastD ""

/-- The storage path built by `handleUpload`:
`${session.user.id}/${Date.now()}.${ext}`. -/
def uploadPathOf (uid : String) (t : Nat) (filename : String) : String :=
  uid ++ "/" ++ toString t ++ "." ++ fileExt filename

/-- Models the public-URL issuance of the external object-storage service
(`getPublicUrl`): one URL per bucket and path. -/
def publicUrlOf (bucket path : String) : String :=
  bucket ++ "/" ++ path

/-- Outcome of one `handleUpload` run. -/
structure UploadOutcome where
  calls : List NetCall
  notes : List Note
  closed : Bool

/-- The `handleUpload` handler (App.tsx lines 83-136). Inputs: the form
state, the modal's session, the two `Date.now()` readings used for the two
storage paths, and the success of each backend step (image upload, file
upload, record insert). A thrown step lands in the single `catch`, which
shows one `Failed to upload character` toast; no step is retried, no
uploaded object is ever removed. -/
def handleUpload (form : UploadForm) (session : Option Session) (t₁ t₂ : Nat)
    (imageOk fileOk insertOk : Bool) : UploadOutcome :=
  match form.characterFile, form.imageFile, session with
  | some cf, some imf, some s =>
    let imagePath := uploadPathOf s.user.id t₁ imf
    if imageOk = false then
      { calls := [NetCall.storageUpload "character-images" imagePath],
        notes := [Note.error "Failed to upload character"], closed := false }
    else
      let imageUrl := publicUrlOf "character-images" imagePath
      let filePath := uploadPathOf s.user.id t₂ cf.filename
      if fileOk = false then
        { calls := [NetCall.storageUpload "character-images" imagePath,
                    NetCall.storageUpload "character-files" filePath],
          notes := [Note.error "Failed to upload character"], closed := false }
      else
        let fileUrl := publicUrlOf "character-files" filePath
        let calls := [NetCall.storageUpload "character-images" imagePath,
                      NetCall.storageUpload "character-files" filePath,
                      NetCall.insertCharacter form.name form.description fileUrl imageUrl s.user.id]
        if insertOk = false then
          { calls := calls, notes := [Note.error "Failed to upload character"], closed := false }
        else
          { calls := calls, notes := [Note.success "Character uploaded successfully!"], closed := true }
  | _, _, _ =>
    { calls := [], notes := [Note.error "Please provide all required files"], closed := false }

/-! ## Profiles and the Session Manager -/

/-- A row of the `profiles` table (migration lines 32-37). -/
structure ProfileRow where
  id : String
  username : String
  avatar_url : Option String
deriving DecidableEq

/-- The default profile `fetchProfile` synthesizes when none exists
(App.tsx lines 250-254): username from
`user_metadata.preferred_username || user_metadata.user_name || user-id`,
no avatar. -/
def defaultProfileFor (u : AuthUser) : ProfileRow :=
  { id := u.id,
    username := jsOrStr u.user_metadata.preferred_username
      (jsOrStr u.user_metadata.user_name ("user-" ++ u.id)),
    avatar_url := none }

/-- Row-level security policies declared on `profiles` by the migration
(lines 39-49): a SELECT policy open to everyone, an UPDATE policy
`auth.uid() = id`, and no INSERT policy at all. Each entry pairs the SQL
command with its predicate over the acting uid and the row. -/
inductive SqlCmd where
  | select
  | insert
  | update
  | delete
deriving DecidableEq

/-- The `profiles` policy list transcribed from the migration. With
row-level security enabled, a command is allowed on a row only if some
policy for that command accepts it; the migration declares none for
INSERT on `profiles`. -/
def profilesPolicies : List (SqlCmd × (Option String → ProfileRow → Bool)) :=
  [(SqlCmd.select, fun _ _ => true),
   (SqlCmd.update, fun uid r => decide (uid = some r.id))]

/-- Row-level-security check: a command is permitted on a row iff some
declared policy for that command accepts the acting uid and the row. -/
def profilesAllowed (cmd : SqlCmd) (uid : Option String) (r : ProfileRow) : Bool :=
  profilesPolicies.any (fun p => decide (p.1 = cmd) && p.2 uid r)

/-- `.from('profiles').select('*').eq('id', uid).single()` — the row with the
given id, if any (the SELECT policy is open to everyone). `none` is the
`PGRST116` (no rows) outcome. -/
def profilesLookup (db : List ProfileRow) (uid : String) : Option ProfileRow :=
  db.find? (fun r => decide (r.id = uid))

/-- Backend response to the profile select, as seen by `fetchProfile`. -/
inductive LookupOutcome where
  | success (p : ProfileRow)
  | pgrst116
  | otherErr
  | reject
deriving DecidableEq

/-- Backend response to the profile upsert, as seen by `fetchProfile`. -/
inductive UpsertOutcome where
  | ok
  | err
  | reject
deriving DecidableEq

/-- `.from('profiles').upsert(row)` under the migration's row-level
security, acting as `uid`: if a row with the same primary key exists, the
conflict takes the update path, which requires the UPDATE policy
`auth.uid() = id`; otherwise it is a plain insert, and since the migration
declares no INSERT policy on `profiles`, row-level security denies it. -/
def profilesUpsert (db : List ProfileRow) (uid : Option String) (row : ProfileRow) :
    UpsertOutcome × List ProfileRow :=
  match profilesLookup db row.id with
  | some existing =>
    if profilesAllowed SqlCmd.update uid existing then
      (UpsertOutcome.ok, db.map (fun r => if r.id = row.id then row else r))
    else
      (UpsertOutcome.err, db)
  | none =>
    if profilesAllowed SqlCmd.insert uid row then
      (UpsertOutcome.ok, db ++ [row])
    else
      (UpsertOutcome.err, db)

/-- App-level session-manager state: the module-level re-entrancy flag
`isFetchingProfile` (App.tsx line 33), the `profile` React state, the
toasts shown so far, and counters of backend calls issued by
`fetchProfile` (one per `await`ed request). -/
structure SessionState where
  isFetchingProfile : Bool
  profile : Option ProfileRow
  notes : List Note
  selectCalls : Nat
  upsertCalls : Nat
deriving DecidableEq

/-- `fetchProfile` (App.tsx lines 238-281) over abstract backend responses.
If the re-entrancy flag is set it returns immediately; otherwise it sets
the flag, issues the select, and on `PGRST116` synthesizes the default
profile and issues the upsert. Every path runs the `finally`, which
clears the flag. `LookupOutcome.reject` and `UpsertOutcome.reject` model a
rejected promise landing in the outer `catch`. -/
def fetchProfile (σ : SessionState) (u : AuthUser) (lk : LookupOutcome)
    (up : UpsertOutcome) : SessionState :=
  if σ.isFetchingProfile then σ
  else
    let σ₁ : SessionState :=
      { σ with isFetchingProfile := true, selectCalls := σ.selectCalls + 1 }
    let σ₂ : SessionState :=
      match lk with
      | LookupOutcome.success p => { σ₁ with profile := some p }
      | LookupOutcome.pgrst116 =>
        let σᵤ : SessionState := { σ₁ with upsertCalls := σ₁.upsertCalls + 1 }
        match up with
        | UpsertOutcome.ok =>
          { σᵤ with profile := some (defaultProfileFor u),
                    notes := σᵤ.notes ++ [Note.success "Profile created successfully!"] }
        | UpsertOutcome.err =>
          { σᵤ with notes := σᵤ.notes ++ [Note.error "Failed to create profile"] }
        | UpsertOutcome.reject =>
          { σᵤ with notes := σᵤ.notes ++ [Note.error "An unexpected error occurred"] }
      | LookupOutcome.otherErr =>
        { σ₁ with notes := σ₁.notes ++ [Note.error "Error fetching profile"] }
      | LookupOutcome.reject =>
        { σ₁ with notes := σ₁.notes ++ [Note.error "An unexpected error occurred"] }
    { σ₂ with isFetchingProfile := false }

/-- The backend's actual responses to the two requests of `fetchProfile`,
derived from the `profiles` table and the migration's policies: the select
finds the row or reports `PGRST116`; the upsert is governed by
`profilesUpsert` acting as the authenticated user. -/
def profilesLookupOutcome (db : List ProfileRow) (uid : String) : LookupOutcome :=
  match profilesLookup db uid with
  | some p => LookupOutcome.success p
  | none => LookupOutcome.pgrst116

/-- The intermediate session-manager states at which another invocation of
`fetchProfile` could start, one per `await` of the source: right after the
select request is issued, and (on the `PGRST116` path) right after the
upsert request is issued. Empty when the invocation returned at the
re-entrancy guard. -/
def fetchProfileMidStates (σ : SessionState) (lk : LookupOutcome) : List SessionState :=
  if σ.isFetchingProfile then []
  else
    let σ₁ : SessionState :=
      { σ with isFetchingProfile := true, selectCalls := σ.selectCalls + 1 }
    match lk with
    | LookupOutcome.pgrst116 =>
      [σ₁, { σ₁ with upsertCalls := σ₁.upsertCalls + 1 }]
    | _ => [σ₁]

/-! ## Likes -/

/-- The `likes` table (migration lines 81-86): one row per
`(character_id, user_id)` pair, which is the primary key. -/
abbrev LikesDB := List (String × String)

/-- The server-side `get_character_likes_count` helper / the `likes(count)`
aggregate of the catalog query: number of like rows for a character. -/
def likesCount (db : LikesDB) (cid : String) : Nat :=
  List.countP (fun p => decide (p.1 = cid)) db

/-- Whether the viewer has liked the character — the `userLikes` map built
by `fetchCharacters` from the rows with `user_id = session.user.id`. -/
def isLikedBy (db : LikesDB) (cid uid : String) : Bool :=
  decide ((cid, uid) ∈ db)

/-- `.from('likes').delete().match({character_id, user_id})`: removes the
matching rows. The DELETE policy `auth.uid() = user_id` passes because the
client always matches on its own user id. -/
def likesDelete (db : LikesDB) (cid uid : String) : LikesDB :=
  db.filter (fun p => decide (¬(p.1 = cid ∧ p.2 = uid)))

/-- Outcome of one `handleLike` run. -/
structure LikeOutcome where
  db : LikesDB
  notes : List Note
  refetched : Bool
deriving DecidableEq

/-- `handleLike` (App.tsx lines 343-371): without a session, a toast and
no backend call; with one, delete the like when `isLiked` and insert it
otherwise (the INSERT `WITH CHECK auth.uid() = user_id` passes because the
client inserts its own user id; inserting an existing primary key is a
conflict error). Either successful path triggers a catalog re-fetch. -/
def handleLike (session : Option Session) (db : LikesDB) (characterId : String)
    (isLiked : Bool) : LikeOutcome :=
  match session with
  | none => { db := db, notes := [Note.error "Please sign in to like characters"], refetched := false }
  | some s =>
    if isLiked then
      { db := likesDelete db characterId s.user.id, notes := [], refetched := true }
    else
      if (characterId, s.user.id) ∈ db then
        { db := db, notes := [Note.error "Failed to like character"], refetched := false }
      else
        { db := db ++ [(characterId, s.user.id)], notes := [], refetched := true }

/-- The double like-toggle scenario of the spec: fetch (computing the
`is_liked` flag from the current table), click the heart, re-fetch, click
again. Returns the final `likes` table. -/
def toggleTwice (u : AuthUser) (db : LikesDB) (cid : String) : LikesDB :=
  let db₁ := (handleLike (some { user := u }) db cid (isLikedBy db cid u.id)).db
  (handleLike (some { user := u }) db₁ cid (isLikedBy db₁ cid u.id)).db

/-! ## Characters, download counter, catalog search -/

/-- A row of the `characters` table (migration lines 52-61). `created_at`
is an abstract timestamp. -/
structure CharacterRow where
  id : String
  name : String
  description : Option String
  file_url : String
  image_url : String
  author_id : String
  download_count : Int
  created_at : Nat
deriving DecidableEq

/-- A catalog entry as processed by `fetchCharacters` (App.tsx lines
317-321): the row plus the aggregate like count and the viewer's
`is_liked` flag. -/
structure CharacterView extends CharacterRow where
  likes_count : Nat
  is_liked : Bool
deriving DecidableEq

/-- The per-row processing of `fetchCharacters`: join in the like count and
the viewer's `is_liked` flag (`false` without a session). -/
def viewOf (likes : LikesDB) (session : Option Session) (r : CharacterRow) : CharacterView :=
  { r with
    likes_count := likesCount likes r.id,
    is_liked :=
      match session with
      | some s => isLikedBy likes r.id s.user.id
      | none => false }

/-- The stored download counter of a character: `download_count` of the
first row with that id, when present. -/
def getCount (db : List CharacterRow) (cid : String) : Option Int :=
  (db.find? (fun r => decide (r.id = cid))).map (fun r => r.download_count)

/-- The stored download counter, defaulting to 0 when the row is absent. -/
def getCountD (db : List CharacterRow) (cid : String) : Int :=
  (getCount db cid).getD 0

/-- The `UPDATE characters SET download_count = v WHERE id = cid` issued by
`handleDownload`, under the migration's UPDATE policy
`USING (auth.uid() = author_id)` (lines 75-78): rows not owned by the
acting uid are invisible to the update and stay unchanged; updating zero
rows is not an error. -/
def charactersUpdateCount (db : List CharacterRow) (uid : Option String)
    (cid : String) (v : Int) : List CharacterRow :=
  db.map (fun r =>
    if r.id = cid ∧ uid = some r.author_id then { r with download_count := v } else r)

/-- Outcome of one `handleDownload` run. -/
structure DownloadOutcome where
  openedUrls : List String
  calls : List NetCall
  notes : List Note
  consoleErrors : Nat
  refetched : Bool

/-- `handleDownload` (App.tsx lines 373-386): opens the entry's stored file
URL in a new tab, then issues the counter update computed from the
last-fetched `download_count`, with no session check of any kind; an update
error is only logged to the console (no toast), and a successful update
triggers a catalog re-fetch. The `App` session state is in scope but never
read by this handler. -/
def handleDownload (_session : Option Session) (c : CharacterView) (updateOk : Bool) :
    DownloadOutcome :=
  { openedUrls := [c.file_url],
    calls := [NetCall.updateDownloadCount c.id (c.download_count + 1)],
    notes := [],
    consoleErrors := if updateOk then 0 else 1,
    refetched := updateOk }

/-- One download of character `cid` by viewer `uid`, at the storage layer:
the client reads the current stored row (the last-fetched value of the
claim) and issues the `download_count + 1` update of `handleDownload`,
which the backend applies through the UPDATE policy. -/
def downloadStep (db : List CharacterRow) (uid : Option String) (cid : String) :
    List CharacterRow :=
  match db.find? (fun r => decide (r.id = cid)) with
  | some row => charactersUpdateCount db uid cid (row.download_count + 1)
  | none => db

/-- A sequence of downloads of character `cid`, each by the viewer given in
the list, each reading the then-current stored value. -/
def downloadRun (db : List CharacterRow) (cid : String) (viewers : List (Option String)) :
    List CharacterRow :=
  viewers.foldl (fun d uid => downloadStep d uid cid) db

/-- Case-insensitive character comparison, as SQL `ILIKE` compares
non-wildcard pattern characters. -/
def charIEq (a b : Char) : Bool :=
  decide (a.toLower = b.toLower)

/-- SQL `ILIKE` pattern matching, as executed by the hosted database on the
pattern `fetchCharacters` builds: `%` matches any sequence, `_` matches any
single character, a backslash escapes the next pattern character, and plain
characters match case-insensitively. The first argument is recursion fuel
(the pattern-plus-string length strictly decreases at every call, so any
fuel above that bound gives the matcher's value; see
`likeMatchF_fuel_eq`). -/
def likeMatchF : Nat → List Char → List Char → Bool
  | 0, _, _ => false
  | _ + 1, [], s => s.isEmpty
  | f + 1, '%' :: ps, [] => likeMatchF f ps []
  | f + 1, '%' :: ps, c :: t => likeMatchF f ps (c :: t) || likeMatchF f ('%' :: ps) t
  | _ + 1, '_' :: _, [] => false
  | f + 1, '_' :: ps, _ :: t => likeMatchF f ps t
  | _ + 1, '\\' :: _, [] => false
  | _ + 1, ['\\'], _ :: _ => false
  | f + 1, '\\' :: q :: ps, c :: t => charIEq q c && likeMatchF f ps t
  | _ + 1, _ :: _, [] => false
  | f + 1, p :: ps, c :: t => charIEq p c && likeMatchF f ps t

/-- SQL `ILIKE` matching of pattern `p` against string `s`, with adequate
fuel. -/
def likeMatch (p s : List Char) : Bool :=
  likeMatchF (p.length + s.length + 1) p s

/-- `query.ilike('name', pat)` applied to one value. -/
def ilikeStr (s pat : String) : Bool :=
  likeMatch pat.data s.data

/-- `fetchCharacters` (App.tsx lines 283-324) on a catalog read: the
`characters` rows (the list is taken in the `created_at`-descending order
in which the ordered select returns them; the filter preserves it), the
`likes` rows, and the session. A non-empty search query adds
`.ilike('name', %query%)` with the query embedded verbatim in the
pattern; the empty query is falsy in `if (searchQuery)` so no filter is
applied. Each returned row is joined with its like count and `is_liked`. -/
def fetchCharacters (db : List CharacterRow) (likes : LikesDB)
    (session : Option Session) (searchQuery : String) : List CharacterView :=
  let rows :=
    if searchQuery = "" then db
    else db.filter (fun r => ilikeStr r.name ("%" ++ searchQuery ++ "%"))
  rows.map (viewOf likes session)

/-- Case-insensitive substring test, formalizing the spec's words
"contains the query as a case-insensitive substring" (the comparison side
of the search claim; not part of the source). -/
def prefixCI : List Char → List Char → Bool
  | [], _ => true
  | _ :: _, [] => false
  | q :: qt, c :: t => charIEq q c && prefixCI qt t

/-- Case-insensitive substring containment of `q` in `s`, formalizing the
spec's words (the comparison side of the search claim; not part of the
source). -/
def containsCI : List Char → List Char → Bool
  | [], q => prefixCI q []
  | c :: t, q => prefixCI q (c :: t) || containsCI t q

/-- Queries free of the SQL LIKE metacharacters `%`, `_` and the escape
backslash. -/
def noMeta (l : List Char) : Bool :=
  l.all (fun c => decide (c ≠ '%') && decide (c ≠ '_') && decide (c ≠ '\\'))

/-! ## Lemmas: ILIKE semantics -/

theorem likeMatchF_fuel_eq : ∀ f₁ f₂ p s, p.length + s.length < f₁ →
    p.length + s.length < f₂ → likeMatchF f₁ p s = likeMatchF f₂ p s := by
  intro f₁
  induction f₁ with
  | zero => intro f₂ p s h; omega
  | succ f ih =>
    intro f₂ p s h₁ h₂
    cases f₂ with
    | zero => omega
    | succ g =>
      cases p with
      | nil => rfl
      | cons p ps =>
        by_cases hp : p = '%'
        · subst hp
          cases s with
          | nil =>
            show likeMatchF f ps [] = likeMatchF g ps []
            apply ih <;> simp at h₁ h₂ ⊢ <;> omega
          | cons c t =>
            show (likeMatchF f ps (c :: t) || likeMatchF f ('%' :: ps) t)
                = (likeMatchF g ps (c :: t) || likeMatchF g ('%' :: ps) t)
            congr 1
            · apply ih <;> simp at h₁ h₂ ⊢ <;> omega
            · apply ih <;> simp at h₁ h₂ ⊢ <;> omega
        · by_cases hu : p = '_'
          · subst hu
            cases s with
            | nil => rfl
            | cons c t =>
              show likeMatchF f ps t = likeMatchF g ps t
              apply ih <;> simp at h₁ h₂ ⊢ <;> omega
          · by_cases hb : p = '\\'
            · subst hb
              cases ps with
              | nil => cases s <;> rfl
              | cons q ps₂ =>
                cases s with
                | nil => rfl
                | cons c t =>
                  show (charIEq q c && likeMatchF f ps₂ t) = (charIEq q c && likeMatchF g ps₂ t)
                  congr 1
                  apply ih <;> simp at h₁ h₂ ⊢ <;> omega
            · cases s with
              | nil => simp [likeMatchF, hp, hu, hb]
              | cons c t =>
                have e1 : likeMatchF (f + 1) (p :: ps) (c :: t)
                    = (charIEq p c && likeMatchF f ps t) := by
                  simp [likeMatchF, hp, hu, hb]
                have e2 : likeMatchF (g + 1) (p :: ps) (c :: t)
                    = (charIEq p c && likeMatchF g ps t) := by
                  simp [likeMatchF, hp, hu, hb]
                rw [e1, e2]
                congr 1
                apply ih <;> simp at h₁ h₂ ⊢ <;> omega

theorem likeMatch_pct_nil (ps : List Char) :
    likeMatch ('%' :: ps) [] = likeMatch ps [] := by
  unfold likeMatch
  simp only [likeMatchF]
  apply likeMatchF_fuel_eq <;> simp

theorem likeMatch_pct_cons (ps : List Char) (c : Char) (t : List Char) :
    likeMatch ('%' :: ps) (c :: t) = (likeMatch ps (c :: t) || likeMatch ('%' :: ps) t) := by
  unfold likeMatch
  simp only [likeMatchF]
  congr 1
  all_goals apply likeMatchF_fuel_eq
  all_goals simp
  all_goals omega

theorem likeMatch_plain_nil (p : Char) (ps : List Char) (hp : p ≠ '%') (hu : p ≠ '_')
    (hb : p ≠ '\\') : likeMatch (p :: ps) [] = false := by
  unfold likeMatch
  simp [likeMatchF, hp, hu, hb]

theorem likeMatch_plain_cons (p : Char) (ps : List Char) (c : Char) (t : List Char)
    (hp : p ≠ '%') (hu : p ≠ '_') (hb : p ≠ '\\') :
    likeMatch (p :: ps) (c :: t) = (charIEq p c && likeMatch ps t) := by
  unfold likeMatch
  have e1 : likeMatchF ((p :: ps).length + (c :: t).length + 1) (p :: ps) (c :: t)
      = (charIEq p c && likeMatchF ((p :: ps).length + (c :: t).length) ps t) := by
    simp [likeMatchF, hp, hu, hb]
  rw [e1]
  congr 1
  apply likeMatchF_fuel_eq <;> simp <;> omega

theorem likeMatch_pct_iff (ps : List Char) : ∀ s, likeMatch ('%' :: ps) s = true ↔
    ∃ a b, s = a ++ b ∧ likeMatch ps b = true := by
  intro s
  induction s with
  | nil =>
    rw [likeMatch_pct_nil]
    constructor
    · intro h; exact ⟨[], [], rfl, h⟩
    · rintro ⟨a, b, hab, h⟩
      obtain ⟨rfl, rfl⟩ := List.append_eq_nil.mp hab.symm
      exact h
  | cons c t ih =>
    rw [likeMatch_pct_cons, Bool.or_eq_true, ih]
    constructor
    · rintro (h | ⟨a, b, rfl, h⟩)
      · exact ⟨[], c :: t, rfl, h⟩
      · exact ⟨c :: a, b, rfl, h⟩
    · rintro ⟨a, b, hab, h⟩
      cases a with
      | nil => left; rw [List.nil_append] at hab; rw [← hab] at h; exact h
      | cons a0 a' =>
        right
        obtain ⟨rfl, htl⟩ := List.cons.inj hab
        exact ⟨a', b, htl, h⟩

theorem likeMatch_pct_only (s : List Char) : likeMatch ['%'] s = true := by
  induction s with
  | nil => rw [likeMatch_pct_nil]; rfl
  | cons c t ih => rw [likeMatch_pct_cons]; simp [ih]

theorem likeMatch_plain_pct (q : List Char) (hq : noMeta q = true) :
    ∀ s, likeMatch (q ++ ['%']) s = true ↔
      ∃ a b, s = a ++ b ∧ a.map Char.toLower = q.map Char.toLower := by
  induction q with
  | nil =>
    intro s
    constructor
    · intro _
      exact ⟨[], s, rfl, by simp⟩
    · intro _
      rw [List.nil_append]
      exact likeMatch_pct_only s
  | cons qh qt ih =>
    have hq' : ((qh ≠ '%' ∧ qh ≠ '_') ∧ qh ≠ '\\') ∧ noMeta qt = true := by
      simpa [noMeta] using hq
    intro s
    cases s with
    | nil =>
      rw [List.cons_append, likeMatch_plain_nil qh _ hq'.1.1.1 hq'.1.1.2 hq'.1.2]
      constructor
      · intro h; simp at h
      · rintro ⟨a, b, hab, hmap⟩
        obtain ⟨rfl, rfl⟩ := List.append_eq_nil.mp hab.symm
        simp at hmap
    | cons c t =>
      rw [List.cons_append, likeMatch_plain_cons qh _ c t hq'.1.1.1 hq'.1.1.2 hq'.1.2,
        Bool.and_eq_true, ih hq'.2 t]
      constructor
      · rintro ⟨hce, a, b, rfl, hmap⟩
        refine ⟨c :: a, b, rfl, ?_⟩
        have hc : qh.toLower = c.toLower := by simpa [charIEq] using hce
        simp [List.map_cons, hmap, hc]
      · rintro ⟨a, b, hab, hmap⟩
        cases a with
        | nil => simp at hmap
        | cons a0 a' =>
          obtain ⟨rfl, htl⟩ := List.cons.inj hab
          simp only [List.map_cons, List.cons.injEq] at hmap
          refine ⟨?_, a', b, htl, hmap.2⟩
          simp [charIEq, hmap.1]

theorem prefixCI_iff (q : List Char) : ∀ s, prefixCI q s = true ↔
    ∃ a b, s = a ++ b ∧ a.map Char.toLower = q.map Char.toLower := by
  induction q with
  | nil =>
    intro s
    constructor
    · intro _
      exact ⟨[], s, rfl, by simp⟩
    · intro _
      rfl
  | cons qh qt ih =>
    intro s
    cases s with
    | nil =>
      constructor
      · intro h; simp [prefixCI] at h
      · rintro ⟨a, b, hab, hmap⟩
        obtain ⟨rfl, rfl⟩ := List.append_eq_nil.mp hab.symm
        simp at hmap
    | cons c t =>
      simp only [prefixCI, Bool.and_eq_true, ih t]
      constructor
      · rintro ⟨hce, a, b, rfl, hmap⟩
        refine ⟨c :: a, b, rfl, ?_⟩
        have hc : qh.toLower = c.toLower := by simpa [charIEq] using hce
        simp [List.map_cons, hmap, hc]
      · rintro ⟨a, b, hab, hmap⟩
        cases a with
        | nil => simp at hmap
        | cons a0 a' =>
          obtain ⟨rfl, htl⟩ := List.cons.inj hab
          simp only [List.map_cons, List.cons.injEq] at hmap
          refine ⟨?_, a', b, htl, hmap.2⟩
          simp [charIEq, hmap.1]

theorem containsCI_nil (s : List Char) : containsCI s [] = true := by
  cases s <;> simp [containsCI, prefixCI]

theorem containsCI_iff (q : List Char) : ∀ s, containsCI s q = true ↔
    ∃ a b c, s = a ++ b ++ c ∧ b.map Char.toLower = q.map Char.toLower := by
  intro s
  induction s with
  | nil =>
    constructor
    · intro h
      have h2 : prefixCI q [] = true := h
      obtain ⟨b, c, hbc, hmap⟩ := (prefixCI_iff q []).mp h2
      exact ⟨[], b, c, by simp [hbc], hmap⟩
    · rintro ⟨a, b, c, habc, hmap⟩
      have ha : a ++ b ++ c = [] := habc.symm
      rw [List.append_eq_nil] at ha
      obtain ⟨hab, rfl⟩ := ha
      rw [List.append_eq_nil] at hab
      obtain ⟨rfl, rfl⟩ := hab
      show prefixCI q [] = true
      exact (prefixCI_iff q []).mpr ⟨[], [], rfl, by simpa using hmap.symm⟩
  | cons c0 t ih =>
    simp only [containsCI, Bool.or_eq_true, ih, prefixCI_iff]
    constructor
    · rintro (⟨b, c, hbc, hmap⟩ | ⟨a, b, c, habc, hmap⟩)
      · exact ⟨[], b, c, by simp [hbc], hmap⟩
      · exact ⟨c0 :: a, b, c, by simp [habc], hmap⟩
    · rintro ⟨a, b, c, habc, hmap⟩
      cases a with
      | nil =>
        left
        exact ⟨b, c, by simpa using habc, hmap⟩
      | cons a0 a' =>
        right
        obtain ⟨rfl, htl⟩ := List.cons.inj habc
        exact ⟨a', b, c, htl, hmap⟩

theorem ilike_eq_containsCI (q s : List Char) (hq : noMeta q = true) :
    likeMatch ('%' :: (q ++ ['%'])) s = containsCI s q := by
  have h1 : likeMatch ('%' :: (q ++ ['%'])) s = true ↔
      ∃ a b c, s = a ++ b ++ c ∧ b.map Char.toLower = q.map Char.toLower := by
    rw [likeMatch_pct_iff]
    constructor
    · rintro ⟨a, r, rfl, hr⟩
      obtain ⟨b, c, rfl, hmap⟩ := (likeMatch_plain_pct q hq r).mp hr
      exact ⟨a, b, c, by simp [List.append_assoc], hmap⟩
    · rintro ⟨a, b, c, rfl, hmap⟩
      exact ⟨a, b ++ c, by simp [List.append_assoc],
        (likeMatch_plain_pct q hq _).mpr ⟨b, c, rfl, hmap⟩⟩
  have h2 := containsCI_iff q s
  cases hL : likeMatch ('%' :: (q ++ ['%'])) s with
  | true => exact (h2.mpr (h1.mp hL)).symm
  | false =>
    cases hC : containsCI s q with
    | true =>
      have := h1.mpr (h2.mp hC)
      rw [hL] at this
      cases this
    | false => rfl

/-! ## Claim C10 — invalid JSON drop leaves the form unchanged -/

/-- C10: dropping a definition file whose content fails to parse as JSON
surfaces the `Invalid JSON file` notification and leaves the upload form
unchanged: the previously staged definition file, the name field and the
description keep their prior values. -/
theorem charOnDropInvalidJsonLeavesFormUnchanged (file : DropFile) (rest : List DropFile)
    (form : UploadForm) (h : file.parsed = none) :
    charOnDrop (file :: rest) form = (form, [Note.error "Invalid JSON file"]) := by
  simp [charOnDrop, h]

/-- Witness for `charOnDropInvalidJsonLeavesFormUnchanged` at a concrete
unparseable file and the initial form. -/
theorem charOnDropInvalidJsonLeavesFormUnchanged_witness :
    (DropFile.mk "bad.json" none).parsed = none
    ∧ charOnDrop [DropFile.mk "bad.json" none] initialUploadForm
      = (initialUploadForm, [Note.error "Invalid JSON file"]) :=
  ⟨rfl, charOnDropInvalidJsonLeavesFormUnchanged (DropFile.mk "bad.json" none) []
    initialUploadForm rfl⟩

/-! ## Claim C1 — a missing name field is not rejected -/

/-- C1 counterexample: a definition file parsing as the JSON object with no
fields (hence no name field) is not rejected. The drop stages it with no
error notification, and the subsequent confirm issues the three network
calls and reports success — contradicting the claim that such an upload is
rejected with a user-facing error before any network call. -/
theorem uploadMissingNameCounterexample :
    (charOnDrop [DropFile.mk "char.json" (some (Json.obj []))] initialUploadForm).2 = []
    ∧ (charOnDrop [DropFile.mk "char.json" (some (Json.obj []))] initialUploadForm).1.characterFile
      = some (DropFile.mk "char.json" (some (Json.obj [])))
    ∧ (handleUpload
        { (charOnDrop [DropFile.mk "char.json" (some (Json.obj []))] initialUploadForm).1 with
          imageFile := some "img.png" }
        (some { user := { id := "u1", user_metadata := { preferred_username := none, user_name := none } } })
        0 0 true true true).calls.length = 3
    ∧ (handleUpload
        { (charOnDrop [DropFile.mk "char.json" (some (Json.obj []))] initialUploadForm).1 with
          imageFile := some "img.png" }
        (some { user := { id := "u1", user_metadata := { preferred_username := none, user_name := none } } })
        0 0 true true true).notes = [Note.success "Character uploaded successfully!"] :=
  ⟨rfl, rfl, rfl, rfl⟩

/-- C1 (amended): the upload flow does not validate the presence of a name
field. A definition file parsing as a JSON object without one is accepted
at drop time with no notification, `details.name` becomes the empty string
and the file is staged; a subsequent confirm with an image and a session
proceeds through all three network calls and reports success. Only a file
whose text fails to parse as JSON is rejected at drop time, per
`charOnDropInvalidJsonLeavesFormUnchanged`. -/
theorem charOnDropMissingNameAccepted (fn : String) (fs : List (String × Json))
    (st : UploadForm) (imf : String) (s : Session) (t₁ t₂ : Nat)
    (h : jsonFieldLast fs "name" = none) :
    charOnDrop [DropFile.mk fn (some (Json.obj fs))] st
      = ({ st with characterFile := some (DropFile.mk fn (some (Json.obj fs))),
                   name := Json.str "" }, [])
    ∧ (handleUpload
        { st with characterFile := some (DropFile.mk fn (some (Json.obj fs))),
                  name := Json.str "", imageFile := some imf }
        (some s) t₁ t₂ true true true).calls.length = 3
    ∧ (handleUpload
        { st with characterFile := some (DropFile.mk fn (some (Json.obj fs))),
                  name := Json.str "", imageFile := some imf }
        (some s) t₁ t₂ true true true).notes
      = [Note.success "Character uploaded successfully!"] := by
  refine ⟨?_, rfl, rfl⟩
  simp [charOnDrop, jsonGet, h, jsOrDefault]

/-- Witness for `charOnDropMissingNameAccepted` at a concrete empty JSON
object dropped on the initial form. -/
theorem charOnDropMissingNameAccepted_witness :
    jsonFieldLast ([] : List (String × Json)) "name" = none
    ∧ charOnDrop [DropFile.mk "char.json" (some (Json.obj []))] initialUploadForm
      = ({ initialUploadForm with
            characterFile := some (DropFile.mk "char.json" (some (Json.obj []))),
            name := Json.str "" }, []) :=
  ⟨rfl, (charOnDropMissingNameAccepted "char.json" [] initialUploadForm "img.png"
      { user := { id := "u1", user_metadata := { preferred_username := none, user_name := none } } }
      0 0 rfl).1⟩

/-! ## Claim C2 — downloads are not gated on a session -/

/-- C2 counterexample: with no active session the download handler still
issues one backend update call and shows no notification, contradicting the
claimed client-side rejection with a user-facing notification. -/
theorem downloadNoSessionCounterexample :
    (handleDownload none
        { id := "c1", name := "Nova", description := none, file_url := "f1",
          image_url := "i1", author_id := "a1", download_count := 5, created_at := 0,
          likes_count := 0, is_liked := false } true).calls.length = 1
    ∧ (handleDownload none
        { id := "c1", name := "Nova", description := none, file_url := "f1",
          image_url := "i1", author_id := "a1", download_count := 5, created_at := 0,
          likes_count := 0, is_liked := false } true).notes = [] :=
  ⟨rfl, rfl⟩

/-- C2 (amended): `handleDownload` performs no session check at all: its
outcome is identical for any two session values, and even with no session
it issues the one download-count update computed from the last-fetched
value while showing no user-facing notification (a failed update is only
logged to the console). -/
theorem handleDownloadIgnoresSession (s₁ s₂ : Option Session) (c : CharacterView) (ok : Bool) :
    handleDownload s₁ c ok = handleDownload s₂ c ok
    ∧ (handleDownload none c ok).calls
      = [NetCall.updateDownloadCount c.id (c.download_count + 1)]
    ∧ (handleDownload none c ok).notes = [] :=
  ⟨rfl, rfl, rfl⟩

/-! ## Claim C3 — failure handling of the three-step upload -/

/-- C3: with both files staged and a session present, a failure at any of
the three upload steps aborts the remaining steps and surfaces exactly one
failure notification; no trace ever holds a storage-remove call, so
already-uploaded objects are never rolled back; in particular when the
record insert fails, both objects were uploaded (both upload calls are in
the trace, followed only by the failed insert) and no entry is created
(the modal does not close with success). -/
theorem handleUploadFailureAtomicity (form : UploadForm) (cf : DropFile) (imf : String)
    (s : Session) (t₁ t₂ : Nat) (imageOk fileOk insertOk : Bool)
    (hcf : form.characterFile = some cf) (him : form.imageFile = some imf) :
    (handleUpload form (some s) t₁ t₂ imageOk fileOk insertOk).calls.filter NetCall.isRemove = []
    ∧ ((handleUpload form (some s) t₁ t₂ false fileOk insertOk).calls
        = [NetCall.storageUpload "character-images" (uploadPathOf s.user.id t₁ imf)]
      ∧ (handleUpload form (some s) t₁ t₂ false fileOk insertOk).notes
        = [Note.error "Failed to upload character"]
      ∧ (handleUpload form (some s) t₁ t₂ false fileOk insertOk).closed = false)
    ∧ ((handleUpload form (some s) t₁ t₂ true false insertOk).calls
        = [NetCall.storageUpload "character-images" (uploadPathOf s.user.id t₁ imf),
           NetCall.storageUpload "character-files" (uploadPathOf s.user.id t₂ cf.filename)]
      ∧ (handleUpload form (some s) t₁ t₂ true false insertOk).notes
        = [Note.error "Failed to upload character"]
      ∧ (handleUpload form (some s) t₁ t₂ true false insertOk).closed = false)
    ∧ ((handleUpload form (some s) t₁ t₂ true true false).calls
        = [NetCall.storageUpload "character-images" (uploadPathOf s.user.id t₁ imf),
           NetCall.storageUpload "character-files" (uploadPathOf s.user.id t₂ cf.filename),
           NetCall.insertCharacter form.name form.description
             (publicUrlOf "character-files" (uploadPathOf s.user.id t₂ cf.filename))
             (publicUrlOf "character-images" (uploadPathOf s.user.id t₁ imf)) s.user.id]
      ∧ (handleUpload form (some s) t₁ t₂ true true false).notes
        = [Note.error "Failed to upload character"]
      ∧ (handleUpload form (some s) t₁ t₂ true true false).closed = false) := by
  obtain ⟨a, b, n, d⟩ := form
  obtain rfl : a = some cf := hcf
  obtain rfl : b = some imf := him
  refine ⟨?_, ⟨rfl, rfl, rfl⟩, ⟨rfl, rfl, rfl⟩, ⟨rfl, rfl, rfl⟩⟩
  cases imageOk <;> cases fileOk <;> cases insertOk <;> rfl

/-- Witness for `handleUploadFailureAtomicity`: a concrete staged form, a
session, and a failing record insert; one failure toast and no closing. -/
theorem handleUploadFailureAtomicity_witness :
    ({ characterFile := some (DropFile.mk "c.json" (some (Json.obj []))),
       imageFile := some "i.png", name := Json.str "Nova",
       description := "" } : UploadForm).characterFile
      = some (DropFile.mk "c.json" (some (Json.obj [])))
    ∧ (handleUpload
        { characterFile := some (DropFile.mk "c.json" (some (Json.obj []))),
          imageFile := some "i.png", name := Json.str "Nova", description := "" }
        (some { user := { id := "u1", user_metadata := { preferred_username := none, user_name := none } } })
        1 2 true true false).notes = [Note.error "Failed to upload character"]
    ∧ (handleUpload
        { characterFile := some (DropFile.mk "c.json" (some (Json.obj []))),
          imageFile := some "i.png", name := Json.str "Nova", description := "" }
        (some { user := { id := "u1", user_metadata := { preferred_username := none, user_name := none } } })
        1 2 true true false).closed = false := by
  have h := handleUploadFailureAtomicity
    { characterFile := some (DropFile.mk "c.json" (some (Json.obj []))),
      imageFile := some "i.png", name := Json.str "Nova", description := "" }
    (DropFile.mk "c.json" (some (Json.obj []))) "i.png"
    { user := { id := "u1", user_metadata := { preferred_username := none, user_name := none } } }
    1 2 true true false rfl rfl
  exact ⟨rfl, h.2.2.2.2.1, h.2.2.2.2.2⟩

/-! ## Claim C4 — double like-toggle restores state -/

theorem likesDelete_not_mem_eq (db : LikesDB) (cid uid : String)
    (h : (cid, uid) ∉ db) : likesDelete db cid uid = db := by
  unfold likesDelete
  apply List.filter_eq_self.mpr
  intro p hp
  have hne : p ≠ (cid, uid) := fun e => h (e ▸ hp)
  simp only [decide_eq_true_eq]
  intro hand
  exact hne (Prod.ext hand.1 hand.2)

theorem not_mem_likesDelete (db : LikesDB) (cid uid : String) :
    (cid, uid) ∉ likesDelete db cid uid := by
  intro hmem
  have h := List.of_mem_filter hmem
  simp at h

theorem likesDelete_cons_self (t : LikesDB) (cid uid : String) :
    likesDelete ((cid, uid) :: t) cid uid = likesDelete t cid uid := by
  unfold likesDelete
  simp [List.filter_cons]

theorem likesDelete_cons_keep (p : String × String) (t : LikesDB) (cid uid : String)
    (h : p ≠ (cid, uid)) :
    likesDelete (p :: t) cid uid = p :: likesDelete t cid uid := by
  have hQ : (decide (¬(p.1 = cid ∧ p.2 = uid))) = true := by
    simp only [decide_eq_true_eq]
    intro hand
    exact h (Prod.ext hand.1 hand.2)
  unfold likesDelete
  simp [List.filter_cons, hQ]
  intro h1 h2
  exact h (Prod.ext h1 h2)

theorem mem_likesDelete_count (db : LikesDB) (cid uid : String) (hnd : db.Nodup)
    (hm : (cid, uid) ∈ db) :
    likesCount (likesDelete db cid uid) cid + 1 = likesCount db cid := by
  induction db with
  | nil => cases hm
  | cons p t ih =>
    obtain ⟨hp, hnd2⟩ := List.nodup_cons.mp hnd
    rcases List.mem_cons.mp hm with he | ht
    · subst he
      rw [likesDelete_cons_self, likesDelete_not_mem_eq t cid uid hp]
      unfold likesCount
      rw [List.countP_cons]
      simp
    · have hpne : p ≠ (cid, uid) := fun e => hp (e ▸ ht)
      rw [likesDelete_cons_keep p t cid uid hpne]
      have hrec := ih hnd2 ht
      unfold likesCount at hrec ⊢
      rw [List.countP_cons, List.countP_cons]
      omega

/-- C4: with the `likes` table satisfying its primary-key uniqueness, and
the `is_liked` flag recomputed from the table between the two clicks (the
re-fetch), toggling the like twice through `handleLike` returns both the
viewer's `is_liked` state and the aggregate like-count of the entry to
their original values. -/
theorem likeToggleTwiceRestores (u : AuthUser) (db : LikesDB) (cid : String)
    (hnd : db.Nodup) :
    isLikedBy (toggleTwice u db cid) cid u.id = isLikedBy db cid u.id
    ∧ likesCount (toggleTwice u db cid) cid = likesCount db cid := by
  by_cases hm : (cid, u.id) ∈ db
  · have h1 : isLikedBy db cid u.id = true := by simp [isLikedBy, hm]
    have hdel : toggleTwice u db cid = likesDelete db cid u.id ++ [(cid, u.id)] := by
      have e1 : (handleLike (some { user := u }) db cid (isLikedBy db cid u.id)).db
          = likesDelete db cid u.id := by
        rw [h1]
        rfl
      have h2 : isLikedBy (likesDelete db cid u.id) cid u.id = false := by
        simp [isLikedBy, not_mem_likesDelete]
      have e2 : (handleLike (some { user := u }) (likesDelete db cid u.id) cid
            (isLikedBy (likesDelete db cid u.id) cid u.id)).db
          = likesDelete db cid u.id ++ [(cid, u.id)] := by
        rw [h2]
        simp [handleLike, not_mem_likesDelete db cid u.id]
      show (handleLike (some { user := u })
          ((handleLike (some { user := u }) db cid (isLikedBy db cid u.id)).db) cid
          (isLikedBy ((handleLike (some { user := u }) db cid (isLikedBy db cid u.id)).db)
            cid u.id)).db
        = likesDelete db cid u.id ++ [(cid, u.id)]
      rw [e1, e2]
    constructor
    · rw [hdel, h1]
      simp [isLikedBy]
    · rw [hdel]
      unfold likesCount
      rw [List.countP_append]
      have hc := mem_likesDelete_count db cid u.id hnd hm
      unfold likesCount at hc
      have hone : List.countP (fun p => decide (p.1 = cid)) [(cid, u.id)] = 1 := by simp
      rw [hone]
      omega
  · have h1 : isLikedBy db cid u.id = false := by simp [isLikedBy, hm]
    have hins : toggleTwice u db cid = db := by
      have e1 : (handleLike (some { user := u }) db cid (isLikedBy db cid u.id)).db
          = db ++ [(cid, u.id)] := by
        rw [h1]
        simp [handleLike, hm]
      have h2 : isLikedBy (db ++ [(cid, u.id)]) cid u.id = true := by
        simp [isLikedBy]
      have e2 : (handleLike (some { user := u }) (db ++ [(cid, u.id)]) cid
            (isLikedBy (db ++ [(cid, u.id)]) cid u.id)).db = db := by
        rw [h2]
        show likesDelete (db ++ [(cid, u.id)]) cid u.id = db
        unfold likesDelete
        rw [List.filter_append]
        have hfil := likesDelete_not_mem_eq db cid u.id hm
        unfold likesDelete at hfil
        rw [hfil]
        simp
      show (handleLike (some { user := u })
          ((handleLike (some { user := u }) db cid (isLikedBy db cid u.id)).db) cid
          (isLikedBy ((handleLike (some { user := u }) db cid (isLikedBy db cid u.id)).db)
            cid u.id)).db = db
      rw [e1, e2]
    rw [hins]
    exact ⟨rfl, rfl⟩

/-- Witness for `likeToggleTwiceRestores` at a one-row table where the
viewer has already liked the entry. -/
theorem likeToggleTwiceRestores_witness :
    ([("c1", "u1")] : LikesDB).Nodup
    ∧ (isLikedBy (toggleTwice
          { id := "u1", user_metadata := { preferred_username := none, user_name := none } }
          [("c1", "u1")] "c1") "c1" "u1"
        = isLikedBy [("c1", "u1")] "c1" "u1"
      ∧ likesCount (toggleTwice
          { id := "u1", user_metadata := { preferred_username := none, user_name := none } }
          [("c1", "u1")] "c1") "c1"
        = likesCount [("c1", "u1")] "c1") :=
  ⟨by simp, likeToggleTwiceRestores _ _ _ (by simp)⟩

/-! ## Claim C8 — the stored download counter is non-negative and
non-decreasing -/

theorem getCount_updateCount (db : List CharacterRow) (uid : Option String)
    (cid : String) (v : Int) :
    getCount (charactersUpdateCount db uid cid v) cid = some v
    ∨ getCount (charactersUpdateCount db uid cid v) cid = getCount db cid := by
  induction db with
  | nil => right; rfl
  | cons r t ih =>
    by_cases hr : r.id = cid
    · by_cases ha : uid = some r.author_id
      · left
        simp [charactersUpdateCount, getCount, List.find?_cons, hr, ha]
      · right
        have hc : ¬(r.id = cid ∧ uid = some r.author_id) := fun hand => ha hand.2
        simp [charactersUpdateCount, getCount, List.find?_cons, hr, hc, ha]
    · have hc : ¬(r.id = cid ∧ uid = some r.author_id) := fun hand => hr hand.1
      have hmap : charactersUpdateCount (r :: t) uid cid v
          = r :: charactersUpdateCount t uid cid v := by
        unfold charactersUpdateCount
        rw [List.map_cons, if_neg hc]
      rw [hmap]
      have hfind : getCount (r :: charactersUpdateCount t uid cid v) cid
          = getCount (charactersUpdateCount t uid cid v) cid := by
        unfold getCount
        rw [List.find?_cons_of_neg _ (by simpa using hr)]
      have hfind2 : getCount (r :: t) cid = getCount t cid := by
        unfold getCount
        rw [List.find?_cons_of_neg _ (by simpa using hr)]
      rw [hfind, hfind2]
      exact ih

theorem getCount_downloadStep (db : List CharacterRow) (uid : Option String)
    (cid : String) (n : Int) (h : getCount db cid = some n) :
    ∃ m, getCount (downloadStep db uid cid) cid = some m ∧ n ≤ m := by
  unfold downloadStep
  cases hf : db.find? (fun r => decide (r.id = cid)) with
  | none =>
    refine absurd h ?_
    unfold getCount
    rw [hf]
    simp
  | some row =>
    have hrow : row.download_count = n := by
      unfold getCount at h
      rw [hf] at h
      simpa using h
    rcases getCount_updateCount db uid cid (row.download_count + 1) with hc | hc
    · exact ⟨row.download_count + 1, hc, by omega⟩
    · refine ⟨n, ?_, le_refl n⟩
      rw [hc, h]

theorem getCount_downloadRun (cid : String) (viewers : List (Option String)) :
    ∀ db n, getCount db cid = some n →
      ∃ m, getCount (downloadRun db cid viewers) cid = some m ∧ n ≤ m := by
  induction viewers with
  | nil =>
    intro db n h
    exact ⟨n, h, le_refl n⟩
  | cons uvr rest ih =>
    intro db n h
    obtain ⟨m, hm, hnm⟩ := getCount_downloadStep db uvr cid n h
    obtain ⟨k, hk, hmk⟩ := ih (downloadStep db uvr cid) m hm
    exact ⟨k, hk, le_trans hnm hmk⟩

/-- C8: starting from a stored row whose counter is 0 (the freshly inserted
default) and any sequence of downloads in which each update reads the
then-current stored value, the stored counter is non-negative after every
prefix of the sequence and never decreases as the sequence extends. -/
theorem downloadCounterMonotone (db : List CharacterRow) (cid : String)
    (pre suf : List (Option String)) (h0 : getCount db cid = some 0) :
    0 ≤ getCountD (downloadRun db cid pre) cid
    ∧ getCountD (downloadRun db cid pre) cid
      ≤ getCountD (downloadRun db cid (pre ++ suf)) cid := by
  obtain ⟨m, hm, h0m⟩ := getCount_downloadRun cid pre db 0 h0
  have hsplit : downloadRun db cid (pre ++ suf)
      = downloadRun (downloadRun db cid pre) cid suf := by
    unfold downloadRun
    rw [List.foldl_append]
  obtain ⟨k, hk, hmk⟩ := getCount_downloadRun cid suf (downloadRun db cid pre) m hm
  rw [hsplit]
  unfold getCountD
  rw [hm, hk]
  exact ⟨h0m, hmk⟩

/-- Witness for `downloadCounterMonotone`: one row with counter 0, an
author download applied, then an unauthenticated download attempted. -/
theorem downloadCounterMonotone_witness :
    getCount
        [{ id := "c1", name := "Nova", description := none, file_url := "f1",
           image_url := "i1", author_id := "a1", download_count := 0, created_at := 0 }]
        "c1" = some 0
    ∧ (0 ≤ getCountD
          (downloadRun
            [{ id := "c1", name := "Nova", description := none, file_url := "f1",
               image_url := "i1", author_id := "a1", download_count := 0, created_at := 0 }]
            "c1" [some "a1"]) "c1"
      ∧ getCountD
          (downloadRun
            [{ id := "c1", name := "Nova", description := none, file_url := "f1",
               image_url := "i1", author_id := "a1", download_count := 0, created_at := 0 }]
            "c1" [some "a1"]) "c1"
        ≤ getCountD
            (downloadRun
              [{ id := "c1", name := "Nova", description := none, file_url := "f1",
                 image_url := "i1", author_id := "a1", download_count := 0, created_at := 0 }]
              "c1" ([some "a1"] ++ [none])) "c1") :=
  ⟨rfl, downloadCounterMonotone _ _ _ _ rfl⟩

/-! ## Claim C6 — search is ILIKE with the query embedded verbatim -/

/-- C6 counterexample: the search query is embedded verbatim in the ILIKE
pattern, so its LIKE metacharacters act as wildcards. For the query `_`
the catalog fetch returns an entry named `a`, although `a` does not
contain `_` as a (case-insensitive) substring — the fetch does not return
exactly the entries whose name contains the query. -/
theorem searchWildcardCounterexample :
    fetchCharacters
        [{ id := "c1", name := "a", description := none, file_url := "f1",
           image_url := "i1", author_id := "a1", download_count := 0, created_at := 0 }]
        [] none "_"
      = [viewOf [] none
          { id := "c1", name := "a", description := none, file_url := "f1",
            image_url := "i1", author_id := "a1", download_count := 0, created_at := 0 }]
    ∧ containsCI ("a".data) ("_".data) = false :=
  ⟨rfl, rfl⟩

/-- C6 (amended): for every search query free of the SQL LIKE
metacharacters `%`, `_` and `\` the catalog fetch returns exactly the
entries whose name contains the query as a case-insensitive substring, in
stored order, each processed into its view; and the empty query applies no
filter and returns every entry. -/
theorem fetchCharactersSearchSubstring (db : List CharacterRow) (likes : LikesDB)
    (session : Option Session) (q : String) (hq : noMeta q.data = true) :
    fetchCharacters db likes session q
      = (db.filter (fun r => containsCI r.name.data q.data)).map (viewOf likes session)
    ∧ fetchCharacters db likes session "" = db.map (viewOf likes session) := by
  constructor
  · by_cases h0 : q = ""
    · subst h0
      unfold fetchCharacters
      rw [if_pos rfl]
      have hf : db.filter (fun r => containsCI r.name.data ("" : String).data) = db :=
        List.filter_eq_self.mpr (fun r _ => containsCI_nil r.name.data)
      rw [hf]
    · unfold fetchCharacters
      rw [if_neg h0]
      have hpat : ("%" ++ q ++ "%").data = '%' :: (q.data ++ ['%']) := by
        obtain ⟨l⟩ := q
        rfl
      have hfc : db.filter (fun r => ilikeStr r.name ("%" ++ q ++ "%"))
          = db.filter (fun r => containsCI r.name.data q.data) := by
        apply List.filter_congr
        intro r _
        show ilikeStr r.name ("%" ++ q ++ "%") = containsCI r.name.data q.data
        unfold ilikeStr
        rw [hpat]
        exact ilike_eq_containsCI q.data r.name.data hq
      rw [hfc]
  · unfold fetchCharacters
    rw [if_pos rfl]

/-- Witness for `fetchCharactersSearchSubstring`: the entry named `Nova` is
returned for the query `nov`, evaluating the substring filter at the
concrete table. -/
theorem fetchCharactersSearchSubstring_witness :
    noMeta ("nov".data) = true
    ∧ fetchCharacters
        [{ id := "c1", name := "Nova", description := none, file_url := "f1",
           image_url := "i1", author_id := "a1", download_count := 0, created_at := 0 }]
        [] none "nov"
      = [viewOf [] none
          { id := "c1", name := "Nova", description := none, file_url := "f1",
            image_url := "i1", author_id := "a1", download_count := 0, created_at := 0 }] := by
  refine ⟨rfl, ?_⟩
  have h := (fetchCharactersSearchSubstring
    [{ id := "c1", name := "Nova", description := none, file_url := "f1",
       image_url := "i1", author_id := "a1", download_count := 0, created_at := 0 }]
    [] none "nov" rfl).1
  rw [h]
  rfl

/-! ## Claim C5 — the stored download counter is not incremented for
non-authors -/

/-- C5 (code bug): the client opens the stored file URL, issues the
`last-fetched + 1` counter update and re-fetches on success, exactly as the
claim says — but the migration's UPDATE policy on `characters`
(`USING auth.uid() = author_id`) makes the row invisible to any non-author
downloader, so the update succeeds while changing zero rows and the stored
counter keeps its old value. Evaluated at viewer `v1` downloading character
`c1` authored by `a1` with last-fetched counter 5: the stored counter stays
5 instead of becoming 6. -/
theorem downloadCountPolicyBug :
    (handleDownload (some { user := { id := "v1", user_metadata := { preferred_username := none, user_name := none } } })
        { id := "c1", name := "Nova", description := none, file_url := "f1",
          image_url := "i1", author_id := "a1", download_count := 5, created_at := 0,
          likes_count := 0, is_liked := false } true).openedUrls = ["f1"]
    ∧ (handleDownload (some { user := { id := "v1", user_metadata := { preferred_username := none, user_name := none } } })
        { id := "c1", name := "Nova", description := none, file_url := "f1",
          image_url := "i1", author_id := "a1", download_count := 5, created_at := 0,
          likes_count := 0, is_liked := false } true).calls
      = [NetCall.updateDownloadCount "c1" 6]
    ∧ (handleDownload (some { user := { id := "v1", user_metadata := { preferred_username := none, user_name := none } } })
        { id := "c1", name := "Nova", description := none, file_url := "f1",
          image_url := "i1", author_id := "a1", download_count := 5, created_at := 0,
          likes_count := 0, is_liked := false } true).refetched = true
    ∧ charactersUpdateCount
        [{ id := "c1", name := "Nova", description := none, file_url := "f1",
           image_url := "i1", author_id := "a1", download_count := 5, created_at := 0 }]
        (some "v1") "c1" 6
      = [{ id := "c1", name := "Nova", description := none, file_url := "f1",
           image_url := "i1", author_id := "a1", download_count := 5, created_at := 0 }]
    ∧ getCount
        (charactersUpdateCount
          [{ id := "c1", name := "Nova", description := none, file_url := "f1",
             image_url := "i1", author_id := "a1", download_count := 5, created_at := 0 }]
          (some "v1") "c1" 6) "c1"
      = some 5 := by
  refine ⟨rfl, rfl, rfl, ?_, ?_⟩ <;> simp [charactersUpdateCount, getCount]

/-! ## Claim C7 — profile creation is denied by row-level security -/

/-- C7 (code bug): for a fresh authenticated identity the client
synthesizes exactly the documented default profile (fallback username
`user-u1`, no avatar) and issues the upsert — but the migration declares no
INSERT policy on `profiles`, so row-level security denies the insert: the
table stays unchanged, no profile state is set, and the user sees
`Failed to create profile` instead of the claimed successful persist.
Evaluated at user `u1` with no OAuth metadata and an empty table. -/
theorem profileCreationDeniedBug :
    defaultProfileFor { id := "u1", user_metadata := { preferred_username := none, user_name := none } }
      = { id := "u1", username := "user-u1", avatar_url := none }
    ∧ profilesLookupOutcome [] "u1" = LookupOutcome.pgrst116
    ∧ (profilesUpsert [] (some "u1")
        (defaultProfileFor { id := "u1", user_metadata := { preferred_username := none, user_name := none } })).1
      = UpsertOutcome.err
    ∧ (profilesUpsert [] (some "u1")
        (defaultProfileFor { id := "u1", user_metadata := { preferred_username := none, user_name := none } })).2
      = []
    ∧ fetchProfile
        { isFetchingProfile := false, profile := none, notes := [],
          selectCalls := 0, upsertCalls := 0 }
        { id := "u1", user_metadata := { preferred_username := none, user_name := none } }
        LookupOutcome.pgrst116 UpsertOutcome.err
      = { isFetchingProfile := false, profile := none,
          notes := [Note.error "Failed to create profile"],
          selectCalls := 1, upsertCalls := 1 } :=
  ⟨rfl, rfl, rfl, rfl, rfl⟩

/-! ## Claim C9 — the re-entrancy flag of the profile fetch -/

/-- C9: starting from an idle session-manager state, every intermediate
state of an in-flight `fetchProfile` (one per `await`) has the
`isFetchingProfile` flag set, a second invocation arriving at any such
state returns that state completely unchanged (hence no backend call and no
state change, the call counters included), and the final state has the flag
cleared again for every combination of backend outcomes, success or
failure. -/
theorem fetchProfileReentrancy (σ : SessionState) (u v : AuthUser)
    (lk lk₂ : LookupOutcome) (up up₂ : UpsertOutcome)
    (h : σ.isFetchingProfile = false) :
    (fetchProfileMidStates σ lk).all
        (fun τ => τ.isFetchingProfile && decide (fetchProfile τ v lk₂ up₂ = τ)) = true
    ∧ (fetchProfile σ u lk up).isFetchingProfile = false := by
  constructor
  · cases lk <;> simp [fetchProfileMidStates, fetchProfile, h]
  · cases lk <;> cases up <;> simp [fetchProfile, h]

/-- Witness for `fetchProfileReentrancy` at an idle initial state and the
profile-creation path with a failing upsert. -/
theorem fetchProfileReentrancy_witness :
    ({ isFetchingProfile := false, profile := none, notes := [],
       selectCalls := 0, upsertCalls := 0 } : SessionState).isFetchingProfile = false
    ∧ ((fetchProfileMidStates
          { isFetchingProfile := false, profile := none, notes := [],
            selectCalls := 0, upsertCalls := 0 } LookupOutcome.pgrst116).all
        (fun τ => τ.isFetchingProfile && decide (fetchProfile τ
            { id := "u2", user_metadata := { preferred_username := none, user_name := none } }
            LookupOutcome.pgrst116 UpsertOutcome.err = τ)) = true
      ∧ (fetchProfile
          { isFetchingProfile := false, profile := none, notes := [],
            selectCalls := 0, upsertCalls := 0 }
          { id := "u1", user_metadata := { preferred_username := none, user_name := none } }
          LookupOutcome.pgrst116 UpsertOutcome.err).isFetchingProfile = false) :=
  ⟨rfl, fetchProfileReentrancy _ _ _ _ _ _ _ rfl⟩

end ElizaTown
